import Mathlib

/-!
Shallow embedding of `rollup-common.js` (the lit-html build configuration) and
of the style-map directive contract exercised by its test suite.  Pure
configuration values become Lean terms; the handful of behavioural pieces
(the terser property mangler decision, the replace plugin's textual
substitution, the `generateBundle` hook that discards bundles, and the style
directive) become executable Lean functions, so that theorems about the
configuration can be evaluated on concrete inputs.
-/

set_option autoImplicit false

namespace LitHtml

/-- Property names excluded from mangling (`reservedProperties` in
`rollup-common.js`, lines 42-52). -/
def reservedProperties : List String :=
  [ "_$litType$",
    "_$litDirective$",
    "_value",
    "_setValue",
    "_resolveValue" ]

/-- The cross-package property mangle table (`crossPackagePropertyMangles`
in `rollup-common.js`, lines 58-72): logical private property name paired
with its hard-coded obfuscated token, in source order. -/
def crossPackagePropertyMangles : List (String × String) :=
  [ ("_createElement", "A"),
    ("_endNode", "B"),
    ("_startNode", "C"),
    ("_parts", "E"),
    ("_directive", "F"),
    ("_setEndNode", "G"),
    ("_template", "H"),
    ("_constructor", "I"),
    ("_name", "J"),
    ("_strings", "K"),
    ("_commitValue", "L") ]

/-- JavaScript object update as performed by the spread `\x7b ...obj, [k]: v \x7d`:
an existing key is overwritten in place, a new key is appended at the end. -/
def jsObjectSet (obj : List (String × String)) (k v : String) :
    List (String × String) :=
  if (obj.map Prod.fst).contains k then
    obj.map (fun p => if p.1 = k then (k, v) else p)
  else
    obj ++ [(k, v)]

/-- The `props.props` table of the terser name cache built at the start of
`litRollupConfig` (lines 99-108): the mangle table folded into an object,
each key prefixed with a dollar sign. -/
def nameCachePropsTable : List (String × String) :=
  crossPackagePropertyMangles.foldl
    (fun obj p => jsObjectSet obj ("$" ++ p.1) p.2) []

/-- Inner `props` object of the terser name cache. -/
structure NameCacheInner where
  props : List (String × String)
deriving DecidableEq, Repr

/-- The terser shared name cache: `\x7b props: \x7b props: ... \x7d \x7d`. -/
structure NameCache where
  props : NameCacheInner
deriving DecidableEq, Repr

/-- Value of terser's `output.comments` option: `false` in CHECKSIZE mode
(strip everything), the string `"some"` otherwise (keep licence comments). -/
inductive CommentsOption where
  | disabled
  | someComments
deriving DecidableEq, Repr

/-- Terser `output` options. -/
structure TerserOutputOptions where
  comments : CommentsOption
  inline_script : Bool
deriving DecidableEq, Repr

/-- Terser `compress` options. -/
structure TerserCompressOptions where
  unsafeFlag : Bool
  passes : Nat
deriving DecidableEq, Repr

/-- Terser `mangle.properties` options: the regex is kept as its source
text, `reserved` is the list of names never mangled. -/
structure ManglePropertiesOptions where
  regex : String
  reserved : List String
  debug : Bool
deriving DecidableEq, Repr

/-- Terser `mangle` options. -/
structure TerserMangleOptions where
  properties : ManglePropertiesOptions
deriving DecidableEq, Repr

/-- The full terser options object built by `litRollupConfig`
(lines 122-144), parameterised by the CHECKSIZE environment flag. -/
structure TerserOptions where
  warnings : Bool
  ecma : Nat
  compress : TerserCompressOptions
  output : TerserOutputOptions
  nameCache : NameCache
  mangle : TerserMangleOptions
deriving DecidableEq, Repr

/-- The `terserOptions` value of `rollup-common.js`, shared by both build
stages of one `litRollupConfig` call. -/
def terserOptions (CHECKSIZE : Bool) : TerserOptions :=
  { warnings := true
    ecma := 2017
    compress := { unsafeFlag := true, passes := 2 }
    output :=
      { comments := if CHECKSIZE then .disabled else .someComments
        inline_script := false }
    nameCache := ⟨⟨nameCachePropsTable⟩⟩
    mangle :=
      { properties :=
          { regex := "^_"
            reserved := reservedProperties
            debug := false } } }

/-- A `src`/`dest` pair of the rollup copy plugin. -/
structure CopyTarget where
  src : String
  dest : String
deriving DecidableEq, Repr

/-- The plugins appearing in the two build stage descriptors. -/
inductive Plugin where
  | virtualPlugin (modules : List (String × String))
  | terserPlugin (opts : TerserOptions)
  | skipBundle
  | replacePlugin (pairs : List (String × String))
  | sourcemapsPlugin
  | summaryPlugin
  | copyPlugin (targets : List CopyTarget)
deriving DecidableEq, Repr

/-- Rollup `output` options used by the two stages. -/
structure OutputOptions where
  file : Option String := none
  dir : Option String := none
  format : String
  preserveModules : Bool := false
  sourcemap : Bool := false
deriving DecidableEq, Repr

/-- One rollup build stage descriptor, as returned by `litRollupConfig`. -/
structure BuildStage where
  input : List String
  output : OutputOptions
  external : List String
  treeshake : Bool := true
  plugins : List Plugin
deriving DecidableEq, Repr

/-- Name of the virtual seeder input module. -/
def nameCacheSeederInfile : String := "name-cache-seeder-virtual-input.js"

/-- Name of the throwaway seeder output file. -/
def nameCacheSeederOutfile : String := "name-cache-seeder-throwaway-output.js"

/-- The lines of the virtual seeder module (`nameCacheSeederContents`,
lines 111-120): an import of each entry point followed by a synthetic
`console.log(window.<name>)` read of each cross-package property name. -/
def nameCacheSeederLines (entryPoints : List String) : List String :=
  entryPoints.map (fun name => "import \x27./development/" ++ name ++ ".js\x27;")
    ++ crossPackagePropertyMangles.map
        (fun p => "console.log(window." ++ p.1 ++ ");")

/-- The seeder module text: its lines joined by newlines. -/
def nameCacheSeederContents (entryPoints : List String) : String :=
  String.intercalate "\n" (nameCacheSeederLines entryPoints)

/-- Node's `path.dirname` restricted to the relative, slash-separated
module identifiers used as entry-point names here. -/
def dirname (p : String) : String :=
  let parts := p.splitOn "/"
  if parts.length ≤ 1 then "." else String.intercalate "/" parts.dropLast

/-- The replacement table of the `replace(\x7b...\x7d)` plugin call in the
per-entry stage (lines 198-200). -/
def devModeReplacePairs : List (String × String) :=
  [("const DEV_MODE = true", "const DEV_MODE = false")]

/-- The list of build stage descriptors returned by `litRollupConfig`
(lines 146-219): first the name-cache seeder stage, then the per-entry
bundling stage. -/
def litRollupConfig (CHECKSIZE : Bool)
    (entryPoints : List String) (external : List String) : List BuildStage :=
  [ { input := [nameCacheSeederInfile]
      output := { file := some nameCacheSeederOutfile, format := "esm" }
      external := external
      treeshake := false
      plugins :=
        [ .virtualPlugin
            [(nameCacheSeederInfile, nameCacheSeederContents entryPoints)],
          .terserPlugin (terserOptions CHECKSIZE),
          .skipBundle ] },
    { input := entryPoints.map (fun name => "development/" ++ name ++ ".js")
      output :=
        { dir := some "./"
          format := "esm"
          preserveModules := true
          sourcemap := !CHECKSIZE }
      external := external
      plugins :=
        [ .replacePlugin devModeReplacePairs,
          .sourcemapsPlugin,
          .terserPlugin (terserOptions CHECKSIZE),
          .summaryPlugin ]
        ++ (if CHECKSIZE then
              [.skipBundle]
            else
              [ .copyPlugin (entryPoints.map (fun name =>
                  { src := "development/" ++ name ++ ".d.ts"
                    dest := dirname name })) ]) } ]

/-- The `generateBundle` hook of `skipBundleOutput` (lines 32-40): it
iterates over the names of the bundle object and deletes each entry, so
nothing is written. -/
def skipBundleOutputGenerate {β : Type} (bundles : List (String × β)) :
    List (String × β) :=
  (bundles.map Prod.fst).foldl
    (fun bs name => bs.filter (fun p => p.1 != name)) bundles

/-- Matching function of a regex literal, restricted to the one regex that
occurs in the source: `/^_/` matches exactly the strings that start with an
underscore.  Any other regex source text matches nothing. -/
def regexTest (re : String) (s : String) : Bool :=
  match re with
  | "^_" => s.toList.head? == some '_'
  | _ => false

/-- Modelled from the spec: terser's property-mangling decision under a
`mangle.properties` configuration (the minifier itself is an external
collaborator).  A property name is replaced only when it matches the
configured regex and is not reserved; a replaced name takes its token from
the name cache when present (keys are dollar-prefixed there) and otherwise
from the minifier's fresh-name generator, modelled as a parameter. -/
def manglePropName (opts : ManglePropertiesOptions)
    (cache : List (String × String)) (fresh : String → String)
    (name : String) : String :=
  if regexTest opts.regex name && !(opts.reserved.contains name) then
    ((cache.lookup ("$" ++ name)).getD (fresh name))
  else
    name

/-- Occurrence test: does the pattern occur as a contiguous sublist? -/
def occursSub (pat : List Char) : List Char → Bool
  | [] => pat.isEmpty
  | c :: cs => pat.isPrefixOf (c :: cs) || occursSub pat cs

/-- Fuel-indexed scan underlying `replaceAllList`; the fuel only bounds the
recursion depth and one unit per consumed character always suffices. -/
def replaceAllFuel (pat repl : List Char) : Nat → List Char → List Char
  | _, [] => []
  | 0, s => s
  | fuel + 1, c :: cs =>
    if !pat.isEmpty && pat.isPrefixOf (c :: cs) then
      repl ++ replaceAllFuel pat repl fuel (List.drop (pat.length - 1) cs)
    else
      c :: replaceAllFuel pat repl fuel cs

/-- Modelled from the spec: the textual substitution of the rollup replace
plugin (an external collaborator) — every occurrence of the pattern is
replaced, scanning left to right and never rescanning replaced text. -/
def replaceAllList (pat repl : List Char) (s : List Char) : List Char :=
  replaceAllFuel pat repl s.length s

/-- Application of a replace-plugin pair table to a source string. -/
def applyReplaceList (pairs : List (String × String)) (s : String) : String :=
  pairs.foldl
    (fun acc p => String.mk (replaceAllList p.1.toList p.2.toList acc.toList))
    s

/-- A JavaScript error raised while calling `litRollupConfig`. -/
inductive JsCallError where
  | referenceErrorOptionsUndefined
  | typeErrorEntryPointsUndefined
deriving DecidableEq, Repr

/-- The argument object of `litRollupConfig`, with both destructured
fields optional as in JavaScript. -/
structure LitRollupOptions where
  entryPoints : Option (List String) := none
  external : Option (List String) := none
deriving DecidableEq, Repr

/-- Calling convention of `litRollupConfig(\x7b entryPoints, external = [] \x7d
= options)`: with no argument the default-parameter expression evaluates the
identifier `options`, which is declared nowhere in the module, so the call
throws a ReferenceError; with an argument lacking `entryPoints`, the body's
`entryPoints.map` throws a TypeError; otherwise the descriptor list is
returned, `external` defaulting to the empty list. -/
def litRollupConfigCall (CHECKSIZE : Bool) (arg : Option LitRollupOptions) :
    Except JsCallError (List BuildStage) :=
  match arg with
  | none => .error .referenceErrorOptionsUndefined
  | some o =>
    match o.entryPoints with
    | none => .error .typeErrorEntryPointsUndefined
    | some eps => .ok (litRollupConfig CHECKSIZE eps (o.external.getD []))

/-- A style map argument of the directive: CSS property names (camelCase or
hyphenated, custom properties included) paired with string values, in the
enumeration order of the object's keys. -/
abbrev StyleInfo := List (String × String)

/-- The element's inline style, as the value each property name currently
shows; the empty string means the property is unset. -/
abbrev ElementStyle := String → String

/-- Setting one CSS property on the inline style; setting the empty string
clears the property. -/
def setStyleProp (st : ElementStyle) (k v : String) : ElementStyle :=
  fun q => if q = k then v else st q

/-- Modelled from the spec: the update step of the style directive (its
implementation is not in the sources, only its tests are).  Keys of the
previous map that the new map no longer mentions are cleared to the empty
string; the comparison is against the previous key set, not the DOM at
large. -/
def clearRemovedKeys (newKeys : List String) (prevKeys : List String)
    (st : ElementStyle) : ElementStyle :=
  prevKeys.foldl
    (fun s k => if k ∈ newKeys then s else setStyleProp s k "") st

/-- Modelled from the spec: writing every pair of the style map onto the
inline style, in map order. -/
def applyStyleValues (m : StyleInfo) (st : ElementStyle) : ElementStyle :=
  m.foldl (fun s p => setStyleProp s p.1 p.2) st

/-- Modelled from the spec: one application of the style directive, given
the key set it remembered from its previous application.  Returns the
updated inline style and the key set remembered for the next application. -/
def styleMapApply (prevKeys : List String) (m : StyleInfo)
    (st : ElementStyle) : ElementStyle × List String :=
  (applyStyleValues m (clearRemovedKeys (m.map Prod.fst) prevKeys st),
   m.map Prod.fst)

/-- Recognizer for the copy plugin, used to state that the per-entry stage
carries no copy plugin in CHECKSIZE mode. -/
def isCopyPlugin : Plugin → Bool
  | .copyPlugin _ => true
  | _ => false

/-- Where a template binds the style directive. -/
inductive BindingContext where
  | singleStyleAttribute
  | multiPartStyleAttribute
  | otherAttribute (name : String)
  | nodeContent
deriving DecidableEq, Repr

/-- The directive's bind-time error message. -/
def styleMapBindError : String :=
  "The styleMap directive must be used in the style attribute and must be the only part in the attribute."

/-- Modelled from the spec: the bind-time guard of the style directive (its
implementation is not in the sources; the tests at the end of the source
file assert that each misuse throws).  The directive accepts only a style
attribute whose sole part it is; any other binding context raises an error
before any style map is consulted. -/
def styleMapBind (ctx : BindingContext) (m : StyleInfo) :
    Except String StyleInfo :=
  match ctx with
  | .singleStyleAttribute => .ok m
  | _ => .error styleMapBindError

/-- C1: every name of the Reserved Property Set survives property mangling
under the terser options built by `litRollupConfig`, whatever the current
name cache and whatever fresh names the minifier would otherwise pick: the
mangler only replaces names matching the leading-underscore regex that are
not reserved, and the reserved check rejects each of these names. -/
theorem reserved_properties_never_mangled (CHECKSIZE : Bool)
    (cache : List (String × String)) (fresh : String → String)
    (name : String) (h : name ∈ reservedProperties) :
    manglePropName ((terserOptions CHECKSIZE).mangle.properties) cache fresh
      name = name := by
  simp only [reservedProperties, List.mem_cons, List.not_mem_nil, or_false] at h
  rcases h with rfl | rfl | rfl | rfl | rfl <;> rfl

/-- Witness for C1 at the reserved name `_value` with an empty cache and a
fresh-name generator that would rename everything. -/
theorem reserved_properties_never_mangled_witness :
    manglePropName ((terserOptions false).mangle.properties) []
      (fun _ => "Z") "_value" = "_value" :=
  reserved_properties_never_mangled false [] (fun _ => "Z") "_value" (by decide)

/-- C2: the name cache shared by both build stages is pre-loaded with
exactly one `props.props` entry per pair of the cross-package mangle table
— the key is the name prefixed with a dollar sign, the value is the token —
and with nothing else; every stage returned by `litRollupConfig` carries a
terser plugin referencing this very cache. -/
theorem nameCache_seeded_from_mangle_table (CHECKSIZE : Bool)
    (entryPoints external : List String) :
    nameCachePropsTable
        = crossPackagePropertyMangles.map (fun p => ("$" ++ p.1, p.2)) ∧
    (terserOptions CHECKSIZE).nameCache.props.props = nameCachePropsTable ∧
    ∀ st ∈ litRollupConfig CHECKSIZE entryPoints external,
      Plugin.terserPlugin (terserOptions CHECKSIZE) ∈ st.plugins := by
  refine ⟨by decide, rfl, ?_⟩
  intro st hst
  simp only [litRollupConfig, List.mem_cons, List.not_mem_nil, or_false] at hst
  rcases hst with rfl | rfl
  · simp
  · cases CHECKSIZE <;> simp

/-- Witness for C2: the first stage of a concrete configuration indeed
carries the terser plugin with the seeded cache. -/
theorem nameCache_seeded_from_mangle_table_witness :
    nameCachePropsTable
        = crossPackagePropertyMangles.map (fun p => ("$" ++ p.1, p.2)) ∧
    Plugin.terserPlugin (terserOptions false) ∈
      (List.head (litRollupConfig false ["lit-html"] [])
        (by simp [litRollupConfig])).plugins :=
  ⟨(nameCache_seeded_from_mangle_table false ["lit-html"] []).1,
   (nameCache_seeded_from_mangle_table false ["lit-html"] []).2.2 _
     (List.head_mem _)⟩

/-- C9: calling `litRollupConfig` with no argument throws (the default
parameter evaluates the undeclared identifier `options`); an argument
without `entryPoints` also throws; the call returns a descriptor list
exactly when `entryPoints` is supplied, `external` defaulting to `[]`. -/
theorem litRollupConfig_call_requires_options :
    (∀ CHECKSIZE, litRollupConfigCall CHECKSIZE none
        = .error .referenceErrorOptionsUndefined) ∧
    (∀ CHECKSIZE ext, litRollupConfigCall CHECKSIZE
        (some { entryPoints := none, external := ext })
        = .error .typeErrorEntryPointsUndefined) ∧
    (∀ CHECKSIZE eps ext, litRollupConfigCall CHECKSIZE
        (some { entryPoints := some eps, external := ext })
        = .ok (litRollupConfig CHECKSIZE eps (ext.getD []))) :=
  ⟨fun _ => rfl, fun _ _ => rfl, fun _ _ _ => rfl⟩

/-- C10: the cross-package property mangle table is injective — its tokens
are pairwise distinct (and so are its logical names), so seeding the name
cache from it can never alias two cross-package properties. -/
theorem cross_package_mangles_injective :
    (crossPackagePropertyMangles.map Prod.snd).Nodup ∧
    (crossPackagePropertyMangles.map Prod.fst).Nodup := by
  decide

/-- C3: the virtual seeder module is exactly one import line per entry
point, in list order, followed by exactly one synthetic
`console.log(window.<name>)` line per key of the mangle table, all joined
by newlines. -/
theorem seeder_module_line_structure (entryPoints : List String) :
    (nameCacheSeederLines entryPoints).length
        = entryPoints.length + crossPackagePropertyMangles.length ∧
    (∀ i, (hi : i < entryPoints.length) →
      (nameCacheSeederLines entryPoints)[i]? =
        some ("import \x27./development/" ++ entryPoints[i] ++ ".js\x27;")) ∧
    (∀ j, (hj : j < crossPackagePropertyMangles.length) →
      (nameCacheSeederLines entryPoints)[entryPoints.length + j]? =
        some ("console.log(window." ++ (crossPackagePropertyMangles[j]).1
          ++ ");")) ∧
    nameCacheSeederContents entryPoints
        = String.intercalate "\n" (nameCacheSeederLines entryPoints) := by
  refine ⟨by simp [nameCacheSeederLines], ?_, ?_, rfl⟩
  · intro i hi
    rw [nameCacheSeederLines,
      List.getElem?_append_left (by simpa using hi),
      List.getElem?_map, List.getElem?_eq_getElem hi]
    rfl
  · intro j hj
    rw [nameCacheSeederLines,
      List.getElem?_append_right (by simp),
      List.getElem?_map]
    simp only [List.length_map]
    rw [Nat.add_sub_cancel_left, List.getElem?_eq_getElem hj]
    rfl

/-- Witness for C3 at a two-entry-point list: the first line is the import
of the first entry point. -/
theorem seeder_module_line_structure_witness :
    (nameCacheSeederLines ["lit-html", "directives/style-map"])[0]? =
      some ("import \x27./development/"
        ++ ["lit-html", "directives/style-map"][0] ++ ".js\x27;") :=
  (seeder_module_line_structure ["lit-html", "directives/style-map"]).2.1
    0 (by decide)

/-- C4: `litRollupConfig` returns exactly two stage descriptors, the
name-cache seeder stage strictly first (its input is the virtual seeder
module) and the per-entry bundling stage second (its inputs are the
development builds of the entry points), and each of the two stages
carries a terser plugin configured with the same options object — hence
the same name cache. -/
theorem seeder_stage_precedes_bundle_stage (CHECKSIZE : Bool)
    (entryPoints external : List String) :
    (litRollupConfig CHECKSIZE entryPoints external).length = 2 ∧
    ((litRollupConfig CHECKSIZE entryPoints external)[0]?.map (fun st =>
        (st.input,
         decide (Plugin.terserPlugin (terserOptions CHECKSIZE) ∈ st.plugins))))
      = some ([nameCacheSeederInfile], true) ∧
    ((litRollupConfig CHECKSIZE entryPoints external)[1]?.map (fun st =>
        (st.input,
         decide (Plugin.terserPlugin (terserOptions CHECKSIZE) ∈ st.plugins))))
      = some (entryPoints.map (fun name => "development/" ++ name ++ ".js"),
          true) := by
  refine ⟨rfl, ?_, ?_⟩ <;> cases CHECKSIZE <;> simp [litRollupConfig]

/-- Folding a key-filter over any key list covering the bundle object
empties it; this is the whole effect of `skipBundleOutput.generateBundle`. -/
theorem foldl_filter_keys_eq_nil {β : Type} (ks : List String) :
    ∀ bs : List (String × β), (∀ p ∈ bs, p.1 ∈ ks) →
    ks.foldl (fun acc name => acc.filter (fun p => p.1 != name)) bs = [] := by
  induction ks with
  | nil =>
    intro bs h
    cases bs with
    | nil => rfl
    | cons b bs => exact absurd (h b (by simp)) (by simp)
  | cons k ks ih =>
    intro bs h
    simp only [List.foldl_cons]
    apply ih
    intro p hp
    obtain ⟨hmem, hne⟩ := List.mem_filter.mp hp
    have hks := h p hmem
    simp only [bne_iff_ne, ne_eq] at hne
    simp only [List.mem_cons] at hks
    exact hks.resolve_left hne

/-- The `generateBundle` hook of `skipBundleOutput` deletes every bundle. -/
theorem skipBundleOutputGenerate_eq_nil {β : Type}
    (bundles : List (String × β)) :
    skipBundleOutputGenerate bundles = [] :=
  foldl_filter_keys_eq_nil _ bundles
    (fun _ hp => List.mem_map_of_mem Prod.fst hp)

/-- C5: with CHECKSIZE set, both stages carry the bundle-deleting plugin
(and its hook empties any bundle object, so no file is written), the
per-entry output requests no source map, terser strips all comments, and no
copy plugin is configured; with CHECKSIZE unset, terser keeps comments via
the "some" setting, the per-entry output requests a source map, and a copy
plugin places each entry point's `.d.ts` next to its module. -/
theorem checksize_mode_output_behaviour {β : Type}
    (entryPoints external : List String) (bundles : List (String × β)) :
    ((litRollupConfig true entryPoints external)[0]?.map (fun st =>
        decide (Plugin.skipBundle ∈ st.plugins))) = some true ∧
    ((litRollupConfig true entryPoints external)[1]?.map (fun st =>
        decide (Plugin.skipBundle ∈ st.plugins))) = some true ∧
    skipBundleOutputGenerate bundles = [] ∧
    ((litRollupConfig true entryPoints external)[1]?.map
        (fun st => st.output.sourcemap)) = some false ∧
    (terserOptions true).output.comments = CommentsOption.disabled ∧
    ((litRollupConfig true entryPoints external)[1]?.map
        (fun st => st.plugins.any isCopyPlugin)) = some false ∧
    (terserOptions false).output.comments = CommentsOption.someComments ∧
    ((litRollupConfig false entryPoints external)[1]?.map
        (fun st => st.output.sourcemap)) = some true ∧
    ((litRollupConfig false entryPoints external)[1]?.map (fun st =>
        decide (Plugin.copyPlugin (entryPoints.map (fun name =>
          { src := "development/" ++ name ++ ".d.ts"
            dest := dirname name })) ∈ st.plugins))) = some true := by
  refine ⟨?_, ?_, skipBundleOutputGenerate_eq_nil bundles, rfl, rfl, ?_,
    rfl, rfl, ?_⟩ <;> simp [litRollupConfig, isCopyPlugin]

/-- Scanning a string in which the pattern never occurs changes nothing. -/
theorem replaceAllFuel_of_no_occurrence (pat repl : List Char) :
    ∀ (fuel : Nat) (s : List Char), s.length ≤ fuel →
    occursSub pat s = false → replaceAllFuel pat repl fuel s = s := by
  intro fuel
  induction fuel with
  | zero =>
    intro s hlen _
    cases s with
    | nil => rfl
    | cons c cs => simp at hlen
  | succ fuel ih =>
    intro s hlen hocc
    cases s with
    | nil => rfl
    | cons c cs =>
      rw [occursSub] at hocc
      simp only [Bool.or_eq_false_iff] at hocc
      rw [replaceAllFuel, hocc.1]
      simp only [Bool.and_false, Bool.false_eq_true, if_false]
      have : cs.length ≤ fuel := by
        simpa [Nat.succ_le_succ_iff] using hlen
      rw [ih cs this hocc.2]

/-- A string without any occurrence of the pattern is left unchanged. -/
theorem replaceAllList_of_no_occurrence (pat repl s : List Char)
    (hocc : occursSub pat s = false) :
    replaceAllList pat repl s = s :=
  replaceAllFuel_of_no_occurrence pat repl s.length s (Nat.le_refl _) hocc

/-- C6: the per-entry stage's replace plugin is configured with exactly the
single pair mapping `const DEV_MODE = true` to `const DEV_MODE = false` (no
other replace plugin configuration appears in that stage); applying it
rewrites every occurrence of that exact text and leaves any string without
that exact text — e.g. the flag spelled without spaces — unchanged. -/
theorem dev_mode_replacement (CHECKSIZE : Bool)
    (entryPoints external : List String) :
    devModeReplacePairs
        = [("const DEV_MODE = true", "const DEV_MODE = false")] ∧
    ((litRollupConfig CHECKSIZE entryPoints external)[1]?.map (fun st =>
        decide (Plugin.replacePlugin devModeReplacePairs ∈ st.plugins)))
      = some true ∧
    (∀ ps, ((litRollupConfig CHECKSIZE entryPoints external)[1]?.map
        (fun st => decide (Plugin.replacePlugin ps ∈ st.plugins)))
          = some true → ps = devModeReplacePairs) ∧
    applyReplaceList devModeReplacePairs "const DEV_MODE = true"
        = "const DEV_MODE = false" ∧
    applyReplaceList devModeReplacePairs
        "x();\nconst DEV_MODE = true;\nif (DEV_MODE) y();\nconst DEV_MODE = true"
        = "x();\nconst DEV_MODE = false;\nif (DEV_MODE) y();\nconst DEV_MODE = false" ∧
    (∀ s : String,
        occursSub "const DEV_MODE = true".toList s.toList = false →
        applyReplaceList devModeReplacePairs s = s) := by
  refine ⟨rfl, ?_, ?_, by decide, by decide, ?_⟩
  · cases CHECKSIZE <;> simp [litRollupConfig]
  · intro ps hps
    cases CHECKSIZE <;> simp [litRollupConfig] at hps <;> exact hps
  · intro s hocc
    show String.mk (replaceAllList _ _ s.toList) = s
    rw [replaceAllList_of_no_occurrence _ _ _ hocc]
    rfl

/-- Witness for C6: the flag spelled without surrounding spaces is not
rewritten. -/
theorem dev_mode_replacement_witness :
    applyReplaceList devModeReplacePairs "const DEV_MODE=true"
        = "const DEV_MODE=true" :=
  (dev_mode_replacement false [] []).2.2.2.2.2 "const DEV_MODE=true"
    (by decide)

/-- Writing a style map never disturbs a property whose name the map does
not mention. -/
theorem applyStyleValues_of_not_mem (m : StyleInfo) :
    ∀ (st : ElementStyle) (q : String), q ∉ m.map Prod.fst →
    applyStyleValues m st q = st q := by
  induction m with
  | nil => intro st q _; rfl
  | cons p m ih =>
    intro st q hq
    simp only [List.map_cons, List.mem_cons, not_or] at hq
    rw [applyStyleValues, List.foldl_cons]
    have := ih (setStyleProp st p.1 p.2) q hq.2
    rw [applyStyleValues] at this
    rw [this, setStyleProp, if_neg hq.1]

/-- Writing a style map with pairwise distinct keys sets each mentioned
property to the value the map pairs with it. -/
theorem applyStyleValues_of_mem (m : StyleInfo) :
    ∀ (st : ElementStyle) (q v : String), (m.map Prod.fst).Nodup →
    (q, v) ∈ m → applyStyleValues m st q = v := by
  induction m with
  | nil => intro st q v _ hmem; simp at hmem
  | cons p m ih =>
    intro st q v hnd hmem
    simp only [List.map_cons, List.nodup_cons] at hnd
    rw [applyStyleValues, List.foldl_cons]
    rcases List.mem_cons.mp hmem with rfl | hmem'
    · have hq : q ∉ m.map Prod.fst := hnd.1
      have h2 := applyStyleValues_of_not_mem m (setStyleProp st q v) q hq
      rw [applyStyleValues] at h2
      show List.foldl (fun s p => setStyleProp s p.1 p.2)
        (setStyleProp st q v) m q = v
      rw [h2, setStyleProp, if_pos rfl]
    · exact ih (setStyleProp st p.1 p.2) q v hnd.2 hmem'

/-- Clearing removed keys never touches a property outside the previous key
set. -/
theorem clearRemovedKeys_of_not_prev (newKeys : List String) :
    ∀ (prevKeys : List String) (st : ElementStyle) (q : String),
    q ∉ prevKeys → clearRemovedKeys newKeys prevKeys st q = st q := by
  intro prevKeys
  induction prevKeys with
  | nil => intro st q _; rfl
  | cons k pk ih =>
    intro st q hq
    simp only [List.mem_cons, not_or] at hq
    rw [clearRemovedKeys, List.foldl_cons]
    have step := ih (if k ∈ newKeys then st else setStyleProp st k "") q hq.2
    rw [clearRemovedKeys] at step
    rw [step]
    by_cases hk : k ∈ newKeys
    · rw [if_pos hk]
    · rw [if_neg hk, setStyleProp, if_neg hq.1]

/-- Clearing removed keys never touches a property the new map keeps. -/
theorem clearRemovedKeys_of_mem_new (newKeys : List String) (q : String)
    (hq : q ∈ newKeys) :
    ∀ (prevKeys : List String) (st : ElementStyle),
    clearRemovedKeys newKeys prevKeys st q = st q := by
  intro prevKeys
  induction prevKeys with
  | nil => intro st; rfl
  | cons k pk ih =>
    intro st
    rw [clearRemovedKeys, List.foldl_cons]
    have step := ih (if k ∈ newKeys then st else setStyleProp st k "")
    rw [clearRemovedKeys] at step
    rw [step]
    by_cases hk : k ∈ newKeys
    · rw [if_pos hk]
    · rw [if_neg hk, setStyleProp, if_neg]
      intro hqk
      exact hk (hqk ▸ hq)

/-- Clearing removed keys only ever writes the empty string. -/
theorem clearRemovedKeys_eq_or_empty (newKeys : List String) (q : String) :
    ∀ (prevKeys : List String) (st : ElementStyle),
    clearRemovedKeys newKeys prevKeys st q = st q ∨
    clearRemovedKeys newKeys prevKeys st q = "" := by
  intro prevKeys
  induction prevKeys with
  | nil => intro st; exact Or.inl rfl
  | cons k pk ih =>
    intro st
    rw [clearRemovedKeys, List.foldl_cons]
    have step := ih (if k ∈ newKeys then st else setStyleProp st k "")
    rw [clearRemovedKeys] at step
    rcases step with h | h
    · rw [h]
      by_cases hk : k ∈ newKeys
      · rw [if_pos hk]; exact Or.inl rfl
      · rw [if_neg hk, setStyleProp]
        by_cases hqk : q = k
        · rw [if_pos hqk]; exact Or.inr rfl
        · rw [if_neg hqk]; exact Or.inl rfl
    · exact Or.inr h

/-- A previous key the new map drops is cleared to the empty string. -/
theorem clearRemovedKeys_clears (newKeys : List String) (q : String)
    (hq : q ∉ newKeys) :
    ∀ (prevKeys : List String) (st : ElementStyle), q ∈ prevKeys →
    clearRemovedKeys newKeys prevKeys st q = "" := by
  intro prevKeys
  induction prevKeys with
  | nil => intro st h; simp at h
  | cons k pk ih =>
    intro st hmem
    rw [clearRemovedKeys, List.foldl_cons]
    rcases List.mem_cons.mp hmem with rfl | hmem'
    · rw [if_neg hq]
      have step := clearRemovedKeys_eq_or_empty newKeys q pk
        (setStyleProp st q "")
      rw [clearRemovedKeys] at step
      rcases step with h | h
      · rw [h, setStyleProp, if_pos rfl]
      · exact h
    · have step := ih (if k ∈ newKeys then st else setStyleProp st k "") hmem'
      rw [clearRemovedKeys] at step
      exact step

/-- The inline style after binding the directive with `S` and then
re-binding it with `S'`, starting from the inline style `st0`; the first
application remembers no previous keys. -/
def styleAfterTwoApplies (S S' : StyleInfo) (st0 : ElementStyle) :
    ElementStyle :=
  (styleMapApply (styleMapApply [] S st0).2 S' (styleMapApply [] S st0).1).1

/-- C7: after applying the directive with `S` and re-applying with `S'`
(keys of `S'` pairwise distinct), every key of `S'` shows its `S'` value,
every key of `S` missing from `S'` is cleared to the empty string, and
every key mentioned by neither map — statically declared style text
included — still shows its original value; with `S'` empty this clears all
previously set properties. -/
theorem style_map_update_semantics (S S' : StyleInfo) (st0 : ElementStyle)
    (hS' : (S'.map Prod.fst).Nodup) :
    (∀ k v, (k, v) ∈ S' → styleAfterTwoApplies S S' st0 k = v) ∧
    (∀ k, k ∈ S.map Prod.fst → k ∉ S'.map Prod.fst →
      styleAfterTwoApplies S S' st0 k = "") ∧
    (∀ k, k ∉ S.map Prod.fst → k ∉ S'.map Prod.fst →
      styleAfterTwoApplies S S' st0 k = st0 k) := by
  refine ⟨?_, ?_, ?_⟩
  · intro k v hmem
    exact applyStyleValues_of_mem S' _ k v hS' hmem
  · intro k hkS hkS'
    rw [styleAfterTwoApplies]
    show applyStyleValues S' _ k = ""
    rw [applyStyleValues_of_not_mem S' _ k hkS']
    exact clearRemovedKeys_clears (S'.map Prod.fst) k hkS' _ _ hkS
  · intro k hkS hkS'
    rw [styleAfterTwoApplies]
    simp only [styleMapApply]
    rw [applyStyleValues_of_not_mem S' _ k hkS']
    rw [clearRemovedKeys_of_not_prev (S'.map Prod.fst) _ _ k hkS]
    rw [applyStyleValues_of_not_mem S _ k hkS]
    rfl

/-- Witness for C7 on the maps of the `adds and updates properties` and
`removes properties` tests: the overwritten key shows the new value, the
dropped key is cleared, an untouched static key keeps its value. -/
theorem style_map_update_semantics_witness :
    styleAfterTwoApplies
        [("marginTop", "2px"), ("padding-bottom", "4px"), ("opacity", "0.5")]
        [("marginTop", "4px"), ("paddingBottom", "8px"), ("opacity", "0.55")]
        (fun q => if q = "height" then "1px" else "") "marginTop" = "4px" ∧
    styleAfterTwoApplies
        [("marginTop", "2px"), ("padding-bottom", "4px"), ("opacity", "0.5")]
        [("marginTop", "4px"), ("paddingBottom", "8px"), ("opacity", "0.55")]
        (fun q => if q = "height" then "1px" else "") "padding-bottom" = "" ∧
    styleAfterTwoApplies
        [("marginTop", "2px"), ("padding-bottom", "4px"), ("opacity", "0.5")]
        [("marginTop", "4px"), ("paddingBottom", "8px"), ("opacity", "0.55")]
        (fun q => if q = "height" then "1px" else "") "height" = "1px" :=
  ⟨(style_map_update_semantics _ _ _ (by decide)).1 "marginTop" "4px"
      (by decide),
   (style_map_update_semantics _ _ _ (by decide)).2.1 "padding-bottom"
      (by decide) (by decide),
   by
    rw [(style_map_update_semantics _ _ _ (by decide)).2.2 "height"
      (by decide) (by decide)]
    rfl⟩

/-- C8: bound anywhere other than as the sole value of a style attribute —
a non-style attribute, a style attribute with a second dynamic part, or
content position — the directive raises its bind-time error, whatever
style map it was given. -/
theorem style_map_bind_errors (ctx : BindingContext) (m : StyleInfo)
    (h : ctx ≠ BindingContext.singleStyleAttribute) :
    styleMapBind ctx m = .error styleMapBindError := by
  cases ctx with
  | singleStyleAttribute => exact absurd rfl h
  | multiPartStyleAttribute => rfl
  | otherAttribute name => rfl
  | nodeContent => rfl

/-- Witness for C8: binding in content position with the empty style map
raises the error. -/
theorem style_map_bind_errors_witness :
    styleMapBind BindingContext.nodeContent ([] : StyleInfo)
        = .error styleMapBindError :=
  style_map_bind_errors BindingContext.nodeContent ([] : StyleInfo)
    (by decide)

end LitHtml
